import Mathlib

/-
Verification of the result-decoding core of the RelationalAI CLI (Go).

This file shallowly embeds the parts of the source that the checked
properties are about:

  * the Type Interpreter (metadata signature elements, constant-value
    merging: `mergeConstValueArgs`),
  * the Physical Column Adapter and the Builtin Semantic Projector
    (the `Column` variants: primitive, fixed-size-list, struct, literal,
    symbol, unknown, nil, union, char/int128/date/decimal/... columns),
  * the Relation Assembler (`baseRelation.init`, `newRelationColumn`,
    `newValueColumn`, `newConstColumn`),
  * the Relation Algebra (`newUnionRelation`, `makeUnionColumn`,
    `RelationCollection.Select`, `matchSig`).

Modelling conventions:
  * Go `any` values (interface values carried in signatures, column values,
    type tags) are one inductive `GoVal`.  Go's `reflect.Type` values are the
    `GoVal.rty` constructors over the enumeration `RTy`.
  * Machine integers are carried as `Int`/`Nat`; where the Go code converts
    between widths (`int32(x)`, unary minus on int32) the wrap-around is
    modelled explicitly (`wrap32`).
  * `time.Time` values are modelled by their UTC Unix-epoch milliseconds
    (`GoVal.timeV`), which is exactly the information `time.UnixMilli(m).UTC()`
    carries for this code.
  * `decimal.Decimal` (shopspring) values are modelled as a coefficient and
    a base-ten exponent (`GoVal.dec c e`, denoting c * 10^e).
  * Functions that can panic in Go (failed type assertions, out-of-range
    indexing) return `Option`, with `none` exactly on the panicking paths.
  * Go `==`/`!=` on interface values is modelled by the structural boolean
    equality `GoVal.beq` (float payloads, on which Go equality is also
    structural bit-equality, do not occur in any checked claim).
-/

/-- The `reflect.Type` values the decoder distinguishes (part_003,
"Type values": BoolType, CharType, ..., plus list/struct composite types and
the relation-only types BigIntType, TimeType, DecimalType, RationalType,
RuneType, MissingType, MixedType, AnyListType). -/
inductive RTy where
  | boolT | charT | f16T | f32T | f64T
  | i8T | i16T | i32T | i64T | i128T
  | u8T | u16T | u32T | u64T | u128T
  | strT | unspecifiedT | unknownT
  | bigIntT | timeT | decimalT | rationalT | runeT | missingT | mixedT | anyListT
  | listOf (t : RTy)
  | structT
deriving DecidableEq

/-- Go `any` values as they occur in this code: `reflect.Type` tags, literal
values of the primitive kinds, the semantic values produced by the builtin
projector (`time.Time`, `decimal.Decimal`, `*big.Rat`, `*big.Int`), tuple
values (`[]any`), the `ConstType`/`ValueType` compositor slices appearing in
relation signatures, and Go `nil`.  Floating-point payloads are not modelled
(no checked claim involves a float value). -/
inductive GoVal where
  | rty (t : RTy)
  | str (s : String)
  | i8 (v : Int) | i16 (v : Int) | i32 (v : Int) | i64 (v : Int)
  | u8 (v : Nat) | u16 (v : Nat) | u32 (v : Nat) | u64 (v : Nat)
  | boolV (b : Bool)
  | runeV (v : Nat)
  | bigI (v : Int)
  | timeV (ms : Int)
  | dec (coeff : Int) (exp : Int)
  | ratV (q : Rat)
  | constL (vs : List GoVal)
  | valueL (vs : List GoVal)
  | list (vs : List GoVal)
  | nil

mutual

/-- Structural equality on `GoVal`, the model of Go `==` on the interface
values this code compares (`matchSig`, the union column's type
reconciliation). -/
def GoVal.beq : GoVal → GoVal → Bool
  | .rty a, .rty b => a = b
  | .str a, .str b => a = b
  | .i8 a, .i8 b => a = b
  | .i16 a, .i16 b => a = b
  | .i32 a, .i32 b => a = b
  | .i64 a, .i64 b => a = b
  | .u8 a, .u8 b => a = b
  | .u16 a, .u16 b => a = b
  | .u32 a, .u32 b => a = b
  | .u64 a, .u64 b => a = b
  | .boolV a, .boolV b => a = b
  | .runeV a, .runeV b => a = b
  | .bigI a, .bigI b => a = b
  | .timeV a, .timeV b => a = b
  | .dec a b, .dec c d => a = c ∧ b = d
  | .ratV a, .ratV b => a = b
  | .constL a, .constL b => GoVal.beqList a b
  | .valueL a, .valueL b => GoVal.beqList a b
  | .list a, .list b => GoVal.beqList a b
  | .nil, .nil => true
  | _, _ => false

def GoVal.beqList : List GoVal → List GoVal → Bool
  | [], [] => true
  | a :: as_, b :: bs => GoVal.beq a b && GoVal.beqList as_ bs
  | _, _ => false

end

/-- A metadata-signature element in its native representation (part_003):
a primitive `reflect.Type`, a `ConstType` compositor, a `ValueType`
compositor, or a bare literal value. -/
inductive RelType where
  | prim (t : RTy)
  | const (args : List RelType)
  | value (args : List RelType)
  | lit (v : GoVal)

/-- Source `isConstType` (part_004): a metadata element describes a constant value
unless it is a `reflect.Type` or a `ValueType`. -/
def isConstType : RelType → Bool
  | .prim _ => false
  | .value _ => false
  | _ => true

/-- Source `mergeConstValueArgs` (part_003): positionally merge a constant node's
literal argument tuple into its interpreted argument-type list.  A
`reflect.Type` slot consumes one literal from the front; a nested `ConstType`
recurses with the current tail; a leftover `ValueType` (which the caller
should already have converted to a `ConstType`) is replaced by the unknown
type and consumes one literal; literals already present are left untouched.
`none` models the Go panics (`args[0]`/`args[1:]` on an empty slice) when the
tuple underflows.  The Go function returns the merged list plus the unused
tail; the caller (`asNativeConstValueType`) discards that tail. -/
def mergeConstValueArgs : List RelType → List GoVal → Option (List RelType × List GoVal)
  | [], args => some ([], args)
  | .prim _ :: rest, [] => none
  | .prim _ :: rest, a :: args =>
      (mergeConstValueArgs rest args).map fun (s, r) => (.lit a :: s, r)
  | .const sub :: rest, args =>
      (mergeConstValueArgs sub args).bind fun (sub', args') =>
        (mergeConstValueArgs rest args').map fun (s, r) => (.const sub' :: s, r)
  | .value _ :: rest, [] => none
  | .value _ :: rest, _ :: args =>
      (mergeConstValueArgs rest args).map fun (s, r) => (.prim .unknownT :: s, r)
  | .lit v :: rest, args =>
      (mergeConstValueArgs rest args).map fun (s, r) => (.lit v :: s, r)

/-- The number of runtime-type slots of a compositor argument list: one per
`reflect.Type` element, recursing into nested `ConstType` compositors
(literal elements occupy no slot).  Only meaningful for trees without
`ValueType` nodes, the form `asNativeConstValueType` hands to the merge. -/
def slotCount : List RelType → Nat
  | [] => 0
  | .prim _ :: rest => 1 + slotCount rest
  | .const sub :: rest => slotCount sub + slotCount rest
  | .value _ :: rest => 1 + slotCount rest
  | .lit _ :: rest => slotCount rest

/-- No `ValueType` node anywhere in an argument-type list (the caller of the
merge has converted value compositors under a constant context to constant
compositors). -/
def noValueNode : List RelType → Bool
  | [] => true
  | .prim _ :: rest => noValueNode rest
  | .const sub :: rest => noValueNode sub && noValueNode rest
  | .value _ :: rest => false
  | .lit _ :: rest => noValueNode rest

/-- Specification-side fill, following the claim's words: walk the
argument-type list depth-first, nested compositors resolved before later
siblings, placing one literal from the front of the tuple into each
runtime-type slot and leaving literal elements untouched.  Total: if the
tuple underflows, remaining slots keep (junk) `nil`; the comparison theorem
only uses it where the tuple is long enough. -/
def fillSlotsDF : List RelType → List GoVal → List RelType × List GoVal
  | [], args => ([], args)
  | .prim _ :: rest, args =>
      let a := args.headD .nil
      let (s, r) := fillSlotsDF rest args.tail
      (.lit a :: s, r)
  | .const sub :: rest, args =>
      let (sub', args') := fillSlotsDF sub args
      let (s, r) := fillSlotsDF rest args'
      (.const sub' :: s, r)
  | .value _ :: rest, args =>
      let (s, r) := fillSlotsDF rest args.tail
      (.prim .unknownT :: s, r)
  | .lit v :: rest, args =>
      let (s, r) := fillSlotsDF rest args
      (.lit v :: s, r)

/-! ## Rel-specific values (part_002) -/

/-- Milliseconds in a day (part_002 `dayMillis`). -/
def dayMillis : Int := 1 * 24 * 60 * 60 * 1000

/-- Start of epoch time in days since 1AD, Rata Die (part_002
`epochStartDays`). -/
def epochStartDays : Int := 719163

/-- Start of epoch time in milliseconds since 1AD (part_002
`epochStartMillis`). -/
def epochStartMillis : Int := epochStartDays * dayMillis

/-- Source `DateFromRataDie` (part_002): the UTC timestamp (modelled by its Unix
epoch milliseconds) for the given Rata Die day number. -/
def DateFromRataDie (d : Int) : GoVal :=
  .timeV ((d - epochStartDays) * dayMillis)

/-- Source `DateFromRataMillis` (part_002): the UTC timestamp for the given
milliseconds since 1AD. -/
def DateFromRataMillis (d : Int) : GoVal :=
  .timeV (d - epochStartMillis)

/-- Source `NewBigInt128` (part_002): magnitude `lo + hi * 2^64`, negated when the
high word's sign bit (as int64) is set. -/
def bigInt128 (lo hi : Nat) : Int :=
  if 2 ^ 63 ≤ hi then -((lo : Int) + (hi : Int) * 2 ^ 64)
  else (lo : Int) + (hi : Int) * 2 ^ 64

/-- Source `NewBigUint128` (part_002): `lo + hi * 2^64`. -/
def bigUint128 (lo hi : Nat) : Int :=
  (lo : Int) + (hi : Int) * 2 ^ 64

/-- Go conversion `int32(x)` of an int64: wrap to `[-2^31, 2^31)`. -/
def wrap32 (x : Int) : Int :=
  (x + 2 ^ 31) % 2 ^ 32 - 2 ^ 31

/-- Source `NewDecimal128` (part_002): the 2x64-bit pair as a big integer
(`NewBigInt128`) scaled by `10^digits` (shopspring
`decimal.NewFromBigInt`). -/
def NewDecimal128 (lo hi : Nat) (digits : Int) : GoVal :=
  .dec (bigInt128 lo hi) digits

/-- Source `big.NewRat`/`NewRational128`: the exact rational `n/d` (Go panics on a
zero denominator; junk 0 here — unreached by any claim). -/
def goRat (n d : Int) : Rat :=
  (n : Rat) / (d : Rat)

/-! ## Payload extraction helpers (Go typed accessors `Item`/`GetItem`) -/

/-- The int64 payload of a value (typed access on a `DataColumn[int64]`;
junk 0 where Go's typing makes the case impossible). -/
def GoVal.asI64 : GoVal → Int
  | .i64 v => v
  | _ => 0

/-- The payload of a signed-integer value of any width (typed access on a
`DataColumn[int8/16/32/64]`). -/
def GoVal.asIntVal : GoVal → Int
  | .i8 v => v
  | .i16 v => v
  | .i32 v => v
  | .i64 v => v
  | _ => 0

/-- The uint32 payload (typed access on a `SimpleColumn[uint32]`). -/
def GoVal.asU32 : GoVal → Nat
  | .u32 v => v
  | _ => 0

/-- The uint64 payload (typed access on a `TabularColumn[uint64]` element). -/
def GoVal.asU64 : GoVal → Nat
  | .u64 v => v
  | _ => 0

/-- Element `i` of a tuple value (`GetItem` into a fixed-size out slice). -/
def GoVal.tupleAt (v : GoVal) (i : Nat) : GoVal :=
  match v with
  | .list vs => vs.getD i .nil
  | _ => .nil

/-! ## Rendering helpers

Rendering that the Go code delegates to libraries (the `time` package's
calendar formatting, shopspring's decimal formatting, `reflect.Type` names)
is abstracted by stand-in strings; no checked claim depends on those
renderings.  Everything else follows the source (`asString`, part_004). -/

/-- Stand-in for Go `time` library formatting of a timestamp (calendar
formatting is library behaviour outside this repository; no claim depends
on it). -/
def timeFormatAbstract (ms : Int) : String :=
  "time<" ++ toString ms ++ ">"

/-- Stand-in for shopspring decimal formatting (library behaviour; no claim
depends on it). -/
def decimalFormatAbstract (coeff exp : Int) : String :=
  "dec<" ++ toString coeff ++ "e" ++ toString exp ++ ">"

/-- Stand-in for the printed name of a `reflect.Type` (no claim depends on
it). -/
def rtyName : RTy → String
  | _ => "type"

mutual

/-- Go `fmt.Sprintf` of a value with the `v` verb, as used by
`primitiveColumn.String` and the default arm of `asString` (part_004). -/
def goFmt : GoVal → String
  | .rty t => rtyName t
  | .str s => s
  | .i8 v => toString v
  | .i16 v => toString v
  | .i32 v => toString v
  | .i64 v => toString v
  | .u8 v => toString v
  | .u16 v => toString v
  | .u32 v => toString v
  | .u64 v => toString v
  | .boolV b => if b then "true" else "false"
  | .runeV v => toString v
  | .bigI v => toString v
  | .timeV ms => timeFormatAbstract ms
  | .dec c e => decimalFormatAbstract c e
  | .ratV q => toString q.num ++ "/" ++ toString q.den
  | .constL vs => "[" ++ goFmtJoin vs ++ "]"
  | .valueL vs => "[" ++ goFmtJoin vs ++ "]"
  | .list vs => "[" ++ goFmtJoin vs ++ "]"
  | .nil => "<nil>"

def goFmtJoin : List GoVal → String
  | [] => ""
  | [v] => goFmt v
  | v :: vs => goFmt v ++ " " ++ goFmtJoin vs

end

/-- Source `asString` (part_004): strings quoted, runes in single quotes,
timestamps via the time library, everything else via `%v`. -/
def asString : GoVal → String
  | .runeV v => "'" ++ String.singleton (Char.ofNat v) ++ "'"
  | .str s => "\"" ++ s ++ "\""
  | .timeV ms => timeFormatAbstract ms
  | v => goFmt v

/-! ## Columns (part_004)

One inductive covers the concrete `Column` implementations the claims reach.
Each constructor records exactly the fields of the corresponding Go struct
(for the typed generic columns, the element-type parameter is recorded as an
`RTy` tag and the typed payload as `GoVal` data). -/

inductive Col where
  /-- Source `primitiveColumn[T]` / `boolColumn` / `stringColumn`: flat typed data. -/
  | prim (t : RTy) (data : List GoVal)
  /-- Source `listColumn[T]`: raw arrow data plus the fixed sub-column count. -/
  | listC (t : RTy) (data : List GoVal) (ncols : Nat)
  /-- Source `listItemColumn[T]`: fields `data`, `cnum`, `ncols`, in source order. -/
  | listItemC (t : RTy) (data : List GoVal) (cnum : Nat) (ncols : Nat)
  /-- Source `structColumn`: one wrapped column per record field. -/
  | structC (cols : List Col)
  /-- Source `unknownColumn`: fallback reporting a fixed row count. -/
  | unknownC (nrows : Nat)
  /-- Source `charColumn` wrapping a `SimpleColumn[uint32]`. -/
  | charC (col : Col)
  /-- Source `dateColumn` wrapping a `DataColumn[int64]` of Rata Die day counts. -/
  | dateC (col : Col)
  /-- Source `dateTimeColumn` wrapping a `DataColumn[int64]` of millis since 1AD. -/
  | dateTimeC (col : Col)
  /-- Source `decimal8/16/32/64Column`: width tag, wrapped column, exponent
  (the Go field `digits`, already negated by `newDecimalColumn`). -/
  | decC (w : Nat) (col : Col) (exp : Int)
  /-- Source `decimal128Column` wrapping a `TabularColumn[uint64]`. -/
  | dec128C (col : Col) (exp : Int)
  /-- Source `int128Column` wrapping a `TabularColumn[uint64]`. -/
  | int128C (col : Col)
  /-- Source `uint128Column` wrapping a `TabularColumn[uint64]`. -/
  | uint128C (col : Col)
  /-- Source `rational8/16/32/64Column`: width tag and wrapped tabular column. -/
  | ratC (w : Nat) (col : Col)
  /-- Source `rational128Column` wrapping a `TabularColumn[uint64]` of 4 words. -/
  | rat128C (col : Col)
  /-- Source `literalColumn[T]`: one value broadcast over `nrows` rows. -/
  | litC (v : GoVal) (nrows : Nat)
  /-- Source `symbolColumn`: a symbol string broadcast over `nrows` rows. -/
  | symC (s : String) (nrows : Nat)
  /-- Source `missingColumn`. -/
  | missC (nrows : Nat)
  /-- Source `constColumn`: member columns plus the fixed row count. -/
  | constC (cols : List Col) (nrows : Nat)
  /-- Source `valueColumn`: member columns. -/
  | valueC (cols : List Col)
  /-- Source `nilColumn`: placeholder for absent columns during union. -/
  | nilC (nrows : Nat)
  /-- Source `unionColumn`: row-ranges delegated across the member columns. -/
  | unionC (cols : List Col)

mutual

/-- Source `NumRows` of each column variant (part_004).  `listColumn`/
`listItemColumn` report `len(data)/ncols` (Go would panic on a zero
divisor; Nat division returns junk 0 there).  An empty `structColumn`
reports 0 (explicit in the source); an empty `valueColumn`'s `NumRows`
would panic in Go (junk 0 here).  A union column reports the sum of its
members' row counts (`unionColumn.init`). -/
def Col.numRows : Col → Nat
  | .prim _ data => data.length
  | .listC _ data ncols => data.length / ncols
  | .listItemC _ data _ ncols => data.length / ncols
  | .structC cols => Col.headRows cols
  | .unknownC nrows => nrows
  | .charC col => col.numRows
  | .dateC col => col.numRows
  | .dateTimeC col => col.numRows
  | .decC _ col _ => col.numRows
  | .dec128C col _ => col.numRows
  | .int128C col => col.numRows
  | .uint128C col => col.numRows
  | .ratC _ col => col.numRows
  | .rat128C col => col.numRows
  | .litC _ nrows => nrows
  | .symC _ nrows => nrows
  | .missC nrows => nrows
  | .constC _ nrows => nrows
  | .valueC cols => Col.headRows cols
  | .nilC nrows => nrows
  | .unionC cols => Col.sumRows cols

/-- Row count of the first member column, 0 when there is none. -/
def Col.headRows : List Col → Nat
  | [] => 0
  | c :: _ => c.numRows

/-- Sum of the member columns' row counts (`unionColumn.init`). -/
def Col.sumRows : List Col → Nat
  | [] => 0
  | c :: cs => c.numRows + Col.sumRows cs

end

mutual

/-- Source `Value` of each column variant (part_004).  Out-of-range indexing,
which panics in Go, yields junk `nil`.  `constColumn.Value` always reads
row 0 (its cached `vals`); `unionColumn.Value` walks the members' row
ranges and yields Go `nil` past the end. -/
def Col.value : Col → Nat → GoVal
  | .prim _ data, rnum => data.getD rnum .nil
  | .listC _ data ncols, rnum =>
      .list ((List.range ncols).map fun cnum => data.getD (rnum * ncols + cnum) .nil)
  | .listItemC _ data cnum ncols, rnum => data.getD (rnum * ncols + cnum) .nil
  | .structC cols, rnum => .list (Col.valueList cols rnum)
  | .unknownC _, _ => .str "unknown"
  | .charC col, rnum => .runeV (col.value rnum).asU32
  | .dateC col, rnum => DateFromRataDie (col.value rnum).asI64
  | .dateTimeC col, rnum => DateFromRataMillis (col.value rnum).asI64
  | .decC _ col e, rnum => .dec (col.value rnum).asIntVal e
  | .dec128C col e, rnum =>
      NewDecimal128 ((col.value rnum).tupleAt 0).asU64 ((col.value rnum).tupleAt 1).asU64 e
  | .int128C col, rnum =>
      .bigI (bigInt128 ((col.value rnum).tupleAt 0).asU64 ((col.value rnum).tupleAt 1).asU64)
  | .uint128C col, rnum =>
      .bigI (bigUint128 ((col.value rnum).tupleAt 0).asU64 ((col.value rnum).tupleAt 1).asU64)
  | .ratC _ col, rnum =>
      .ratV (goRat ((col.value rnum).tupleAt 0).asIntVal ((col.value rnum).tupleAt 1).asIntVal)
  | .rat128C col, rnum =>
      .ratV (goRat
        (bigInt128 ((col.value rnum).tupleAt 0).asU64 ((col.value rnum).tupleAt 1).asU64)
        (bigInt128 ((col.value rnum).tupleAt 2).asU64 ((col.value rnum).tupleAt 3).asU64))
  | .litC v _, _ => v
  | .symC s _, _ => .str s
  | .missC _, _ => .str "missing"
  | .constC cols _, _ => .list (Col.valueList cols 0)
  | .valueC cols, rnum => .list (Col.valueList cols rnum)
  | .nilC _, _ => .nil
  | .unionC cols, rnum => Col.unionItem cols rnum

/-- The member columns' values at one row (`GetItem`/`GetRow` loops). -/
def Col.valueList : List Col → Nat → List GoVal
  | [], _ => []
  | c :: cs, rnum => c.value rnum :: Col.valueList cs rnum

/-- Source `unionColumn.Item`: find the member column owning the row, Go `nil`
when the row number runs past all members. -/
def Col.unionItem : List Col → Nat → GoVal
  | [], _ => .nil
  | c :: cs, rnum =>
      if rnum < c.numRows then c.value rnum
      else Col.unionItem cs (rnum - c.numRows)

end

mutual

/-- Source `Type` of each column variant (part_004).  A literal/symbol column
reports its value as its type; a nil column reports Go `nil`
(`reflect.TypeOf(nil)`); a union column reports the members' common type,
`MixedType` on disagreement (`unionColumn.init`); an empty union (which Go
would never build and whose `init` would panic) reports junk `nil`. -/
def Col.type : Col → GoVal
  | .prim t _ => .rty t
  | .listC t _ _ => .rty (.listOf t)
  | .listItemC t _ _ _ => .rty t
  | .structC _ => .rty .anyListT
  | .unknownC _ => .rty .strT
  | .charC _ => .rty .runeT
  | .dateC _ => .rty .timeT
  | .dateTimeC _ => .rty .timeT
  | .decC _ _ _ => .rty .decimalT
  | .dec128C _ _ => .rty .decimalT
  | .int128C _ => .rty .bigIntT
  | .uint128C _ => .rty .bigIntT
  | .ratC _ _ => .rty .rationalT
  | .rat128C _ => .rty .rationalT
  | .litC v _ => v
  | .symC s _ => .str s
  | .missC _ => .rty .missingT
  | .constC _ _ => .rty .anyListT
  | .valueC _ => .rty .anyListT
  | .nilC _ => .nil
  | .unionC cols =>
      match cols with
      | [] => .nil
      | c :: cs => Col.typeFold c.type cs

/-- The type-reconciliation fold of `unionColumn.init`: keep the running
type while each member agrees, switch to `MixedType` on the first
disagreement. -/
def Col.typeFold : GoVal → List Col → GoVal
  | acc, [] => acc
  | acc, c :: cs =>
      Col.typeFold (if GoVal.beq acc c.type then acc else .rty .mixedT) cs

end

mutual

/-- Source `String` of each column variant (part_004).  Library-delegated
renderings (time/decimal formatting) go through the stand-ins above; no
checked claim depends on them. -/
def Col.stringAt : Col → Nat → String
  | .prim _ data, rnum => goFmt (data.getD rnum .nil)
  | .listC _ data ncols, rnum =>
      "(" ++ String.intercalate ", "
        ((List.range ncols).map fun cnum => asString (data.getD (rnum * ncols + cnum) .nil))
      ++ ")"
  | .listItemC _ data cnum ncols, rnum => asString (data.getD (rnum * ncols + cnum) .nil)
  | .structC cols, rnum =>
      "(" ++ String.intercalate ", " (Col.stringsList cols rnum) ++ ")"
  | .unknownC _, _ => "unknown"
  | .charC col, rnum => String.singleton (Char.ofNat (col.value rnum).asU32)
  | .dateC col, rnum => goFmt ((Col.dateC col).value rnum)
  | .dateTimeC col, rnum => goFmt ((Col.dateTimeC col).value rnum)
  | .decC w col e, rnum => goFmt ((Col.decC w col e).value rnum)
  | .dec128C col e, rnum => goFmt ((Col.dec128C col e).value rnum)
  | .int128C col, rnum => goFmt ((Col.int128C col).value rnum)
  | .uint128C col, rnum => goFmt ((Col.uint128C col).value rnum)
  | .ratC w col, rnum => goFmt ((Col.ratC w col).value rnum)
  | .rat128C col, rnum => goFmt ((Col.rat128C col).value rnum)
  | .litC v _, _ => asString v
  | .symC s _, _ => s
  | .missC _, _ => "missing"
  | .constC cols _, rnum =>
      "(" ++ String.intercalate ", " (Col.stringsList cols rnum) ++ ")"
  | .valueC cols, rnum =>
      "(" ++ String.intercalate ", " (Col.stringsList cols rnum) ++ ")"
  | .nilC _, _ => "<nil>"
  | .unionC cols, rnum => Col.unionString cols rnum

/-- The per-member strings of a tabular column's row (`Strings`). -/
def Col.stringsList : List Col → Nat → List String
  | [], _ => []
  | c :: cs, rnum => c.stringAt rnum :: Col.stringsList cs rnum

/-- Source `unionColumn.String`: find the owning member, "" past the end. -/
def Col.unionString : List Col → Nat → String
  | [], _ => ""
  | c :: cs, rnum =>
      if rnum < c.numRows then c.stringAt rnum
      else Col.unionString cs (rnum - c.numRows)

end

/-! ## Type interpreter / builtin recognition helpers (part_003, part_004) -/

/-- Source `matchPrefix(sig, "rel", "base", "_")` (part_004): the first three
elements exist and are strings, the first two being "rel" and "base" (the
"_" term matches any string). -/
def matchPrefixRB : List RelType → Bool
  | .lit (.str a) :: .lit (.str b) :: .lit (.str _) :: _ => a = "rel" && b = "base"
  | _ => false

/-- The builtin discriminator: the string at index 2 (`vt[2].(string)`,
guaranteed by `matchPrefixRB`). -/
def discOf (vt : List RelType) : Option String :=
  match vt.get? 2 with
  | some (.lit (.str s)) => some s
  | _ => none

/-- The ten calendar-component builtin kinds. -/
def isCalendarKind (s : String) : Bool :=
  s = "Year" || s = "Month" || s = "Week" || s = "Day" || s = "Hour" ||
  s = "Minute" || s = "Second" || s = "Millisecond" || s = "Microsecond" ||
  s = "Nanosecond"

/-- Source `isRelationPrimitive` (part_004): the primitive types that pass through
unchanged as relation columns. -/
def isRelationPrimitive : RTy → Bool
  | .boolT => true
  | .f16T | .f32T | .f64T => true
  | .i8T | .i16T | .i32T | .i64T => true
  | .u8T | .u16T | .u32T | .u64T => true
  | .strT => true
  | _ => false

/-- Whether a column satisfies the Go type assertion `DataColumn[T]` /
`SimpleColumn[T]` for the primitive type `t`: a flat primitive column or a
list-item sub-column of that element type. -/
def isDataColOf (t : RTy) : Col → Bool
  | .prim t' _ => t' = t
  | .listItemC t' _ _ _ => t' = t
  | _ => false

/-- Whether a column is Go `Tabular` (has `Column`/`Columns`/`NumCols`):
`listColumn`, `structColumn`, `constColumn`, `valueColumn`. -/
def isTabularCol : Col → Bool
  | .listC _ _ _ => true
  | .structC _ => true
  | .constC _ _ => true
  | .valueC _ => true
  | _ => false

/-- Source `Column(cnum)` of a `Tabular` column.  `listColumn.Column` builds a
`listItemColumn{data, cnum, ncols}` (fields in source order) without any
bounds check; the others index their member list (`none` models the Go
out-of-range panic).  Non-tabular columns have no such method (`none`
models the failed interface assertion). -/
def Col.columnAt : Col → Nat → Option Col
  | .listC t data ncols, cnum => some (.listItemC t data cnum ncols)
  | .structC cols, cnum => cols.get? cnum
  | .constC cols _, cnum => cols.get? cnum
  | .valueC cols, cnum => cols.get? cnum
  | _, _ => none

/-- Source `Columns()` of a `Tabular` column.  NOTE: `listColumn.Columns` populates
entry `i` with `listItemColumn[T]{c.data, c.ncols, i}` — the constructor
arguments land on the struct fields positionally, so `cnum` receives
`c.ncols` and `ncols` receives `i` (transposed relative to
`listColumn.Column`).  This transcribes the source as written. -/
def Col.columnsList : Col → Option (List Col)
  | .listC t data ncols => some ((List.range ncols).map fun i => .listItemC t data ncols i)
  | .structC cols => some cols
  | .constC cols _ => some cols
  | .valueC cols => some cols
  | _ => none

/-- Source `newRationalColumn` (part_004): dispatch on the concrete list-column
type, unknown column on anything else. -/
def newRationalColumn (c : Col) : Col :=
  match c with
  | .listC .i8T data n => .ratC 8 (.listC .i8T data n)
  | .listC .i16T data n => .ratC 16 (.listC .i16T data n)
  | .listC .i32T data n => .ratC 32 (.listC .i32T data n)
  | .listC .i64T data n => .ratC 64 (.listC .i64T data n)
  | .listC .u64T data n => .rat128C (.listC .u64T data n)
  | _ => .unknownC c.numRows

/-- Source `newDecimalColumn` (part_004): read `digits := -int32(vt[4].(int64))`
first (panic if absent or mistyped), then dispatch on `vt[3].(int64)`:
the five known bit-widths build the width-specific decimal column
(the argument column must satisfy the corresponding assertion), any other
bit-width degrades to an unknown column reporting the argument column's
row count. -/
def newDecimalColumn (vt : List RelType) (c : Col) : Option Col :=
  match vt.get? 4 with
  | some (.lit (.i64 d)) =>
    let digits := wrap32 (-(wrap32 d))
    match vt.get? 3 with
    | some (.lit (.i64 bits)) =>
      if bits = 8 then (if isDataColOf .i8T c then some (.decC 8 c digits) else none)
      else if bits = 16 then (if isDataColOf .i16T c then some (.decC 16 c digits) else none)
      else if bits = 32 then (if isDataColOf .i32T c then some (.decC 32 c digits) else none)
      else if bits = 64 then (if isDataColOf .i64T c then some (.decC 64 c digits) else none)
      else if bits = 128 then
        match c with
        | .listC .u64T data n => some (.dec128C (.listC .u64T data n) digits)
        | _ => none
      else some (.unknownC c.numRows)
    | _ => none
  | _ => none

/-- Source `newConstDecimalValue` (part_004): `["rel","base","FixedDecimal",
<bits>, <digits>, <value>]` — the typed literal at index 5, scaled by
`10^(-digits)`.  The default arm returns `decimal.Zero` (unreached from
`newConstDecimalColumn`, which guards the bit-width first). -/
def newConstDecimalValue (ct : List RelType) : Option GoVal :=
  match ct.get? 4 with
  | some (.lit (.i64 d)) =>
    let digits := wrap32 (-(wrap32 d))
    match ct.get? 3 with
    | some (.lit (.i64 bits)) =>
      if bits = 8 then
        match ct.get? 5 with
        | some (.lit (.i8 v)) => some (.dec v digits)
        | _ => none
      else if bits = 16 then
        match ct.get? 5 with
        | some (.lit (.i16 v)) => some (.dec v digits)
        | _ => none
      else if bits = 32 then
        match ct.get? 5 with
        | some (.lit (.i32 v)) => some (.dec v digits)
        | _ => none
      else if bits = 64 then
        match ct.get? 5 with
        | some (.lit (.i64 v)) => some (.dec v digits)
        | _ => none
      else if bits = 128 then
        match ct.get? 5 with
        | some (.lit (.bigI v)) => some (.dec v digits)
        | _ => none
      else some (.dec 0 0)
    | _ => none
  | _ => none

/-- Source `newConstDecimalColumn` (part_004): unknown column for a bit-width
outside {8,16,32,64,128}, otherwise a literal column over the constant
decimal value. -/
def newConstDecimalColumn (ct : List RelType) (nrows : Nat) : Option Col :=
  match ct.get? 3 with
  | some (.lit (.i64 bits)) =>
    if bits = 8 ∨ bits = 16 ∨ bits = 32 ∨ bits = 64 ∨ bits = 128 then
      (newConstDecimalValue ct).map fun v => .litC v nrows
    else some (.unknownC nrows)
  | _ => none

/-- Source `newConstRationalValue` (part_004): numerator/denominator literals at
indices 4 and 5, typed by the declared bit-width; `big.NewRat(1,1)` on an
unknown width (unreached from `newConstRationalColumn`). -/
def newConstRationalValue (ct : List RelType) : Option GoVal :=
  match ct.get? 3 with
  | some (.lit (.i64 bits)) =>
    if bits = 8 then
      match ct.get? 4, ct.get? 5 with
      | some (.lit (.i8 n)), some (.lit (.i8 d)) => some (.ratV (goRat n d))
      | _, _ => none
    else if bits = 16 then
      match ct.get? 4, ct.get? 5 with
      | some (.lit (.i16 n)), some (.lit (.i16 d)) => some (.ratV (goRat n d))
      | _, _ => none
    else if bits = 32 then
      match ct.get? 4, ct.get? 5 with
      | some (.lit (.i32 n)), some (.lit (.i32 d)) => some (.ratV (goRat n d))
      | _, _ => none
    else if bits = 64 then
      match ct.get? 4, ct.get? 5 with
      | some (.lit (.i64 n)), some (.lit (.i64 d)) => some (.ratV (goRat n d))
      | _, _ => none
    else if bits = 128 then
      match ct.get? 4, ct.get? 5 with
      | some (.lit (.bigI n)), some (.lit (.bigI d)) => some (.ratV (goRat n d))
      | _, _ => none
    else some (.ratV 1)
  | _ => none

/-- Source `newConstRationalColumn` (part_004): unknown column for a bit-width
outside {8,16,32,64,128}, otherwise a literal column over the constant
rational value. -/
def newConstRationalColumn (ct : List RelType) (nrows : Nat) : Option Col :=
  match ct.get? 3 with
  | some (.lit (.i64 bits)) =>
    if bits = 8 ∨ bits = 16 ∨ bits = 32 ∨ bits = 64 ∨ bits = 128 then
      (newConstRationalValue ct).map fun v => .litC v nrows
    else some (.unknownC nrows)
  | _ => none

/-- Source `builtinType` (part_004): the relation type of a recognized builtin
value compositor, `none` when the discriminator is not recognized (Go
returns a nil `reflect.Type`). -/
def builtinType (vt : List RelType) : Option RTy :=
  if matchPrefixRB vt then
    match discOf vt with
    | some s =>
      if s = "AutoNumber" then some .u64T
      else if s = "Date" then some .timeT
      else if s = "DateTime" then some .timeT
      else if s = "FixedDecimal" then some .decimalT
      else if s = "FilePos" then some .i64T
      else if s = "Hash" then some .bigIntT
      else if s = "Missing" then some .missingT
      else if s = "Rational" then some .rationalT
      else if isCalendarKind s then some .i64T
      else none
    | none => none
  else none

/-- Source `builtinValue` (part_004): the semantic literal value of a recognized
builtin constant compositor, `none` when the discriminator is not
recognized.  Mistyped literal slots (on which Go's type assertions would
panic; unreachable for well-formed metadata) yield junk `GoVal.nil`. -/
def builtinValue (ct : List RelType) : Option GoVal :=
  if matchPrefixRB ct then
    match discOf ct with
    | some s =>
      if s = "AutoNumber" then
        match ct.get? 3 with
        | some (.lit (.u64 v)) => some (.u64 v)
        | _ => some .nil
      else if s = "Date" then
        match ct.get? 3 with
        | some (.lit (.i64 v)) => some (DateFromRataDie v)
        | _ => some .nil
      else if s = "DateTime" then
        match ct.get? 3 with
        | some (.lit (.i64 v)) => some (DateFromRataMillis v)
        | _ => some .nil
      else if s = "FixedDecimal" then
        match newConstDecimalValue ct with
        | some v => some v
        | none => some .nil
      else if s = "FilePos" then
        match ct.get? 3 with
        | some (.lit (.i64 v)) => some (.i64 v)
        | _ => some .nil
      else if s = "Hash" then
        match ct.get? 3 with
        | some (.lit (.bigI v)) => some (.bigI v)
        | _ => some .nil
      else if s = "Missing" then some (.str "missing")
      else if s = "Rational" then
        match newConstRationalValue ct with
        | some v => some v
        | none => some .nil
      else if isCalendarKind s then
        match ct.get? 3 with
        | some (.lit (.i64 v)) => some (.i64 v)
        | _ => some .nil
      else none
    | none => none
  else none

mutual

/-- The plain Go value of a metadata element, for the places that carry a
whole element as a literal (`newLiteralColumn(tt, ...)` default arms):
types stay type tags, compositors stay their slices, literals are
themselves. -/
def relTypeAsGoVal : RelType → GoVal
  | .prim t => .rty t
  | .const ct => .constL (relTypeAsGoValList ct)
  | .value vt => .valueL (relTypeAsGoValList vt)
  | .lit v => v

def relTypeAsGoValList : List RelType → List GoVal
  | [] => []
  | t :: ts => relTypeAsGoVal t :: relTypeAsGoValList ts

end

mutual

/-- Source `relationType` (part_004): map a metadata element to the relation
signature element.  Char and the 128-bit integers re-type to rune/big-int;
recognized builtin compositors collapse to their semantic type/value;
other compositors map their members recursively; bare literals pass
through. -/
def relationType : RelType → GoVal
  | .prim t =>
      if t = .charT then .rty .runeT
      else if t = .i128T then .rty .bigIntT
      else if t = .u128T then .rty .bigIntT
      else .rty t
  | .const ct =>
      match builtinValue ct with
      | some v => v
      | none => .constL (relationTypeList ct)
  | .value vt =>
      match builtinType vt with
      | some t => .rty t
      | none => .valueL (relationTypeList vt)
  | .lit v => v

def relationTypeList : List RelType → List GoVal
  | [] => []
  | t :: ts => relationType t :: relationTypeList ts

end

mutual

/-- Source `newConstColumn` (part_004): a recognized builtin constant compositor
becomes a literal column over its semantic value (`none` models the Go
panics on mistyped literal slots); anything else becomes a structural
`constColumn` whose members are built per element. -/
def newConstColumn : List RelType → Nat → Option Col
  | ct, nrows =>
    if matchPrefixRB ct then
      match discOf ct with
      | some s =>
        if s = "AutoNumber" then
          match ct.get? 3 with
          | some (.lit (.u64 v)) => some (.litC (.u64 v) nrows)
          | _ => none
        else if s = "Date" then
          match ct.get? 3 with
          | some (.lit (.i64 v)) => some (.litC (DateFromRataDie v) nrows)
          | _ => none
        else if s = "DateTime" then
          match ct.get? 3 with
          | some (.lit (.i64 v)) => some (.litC (DateFromRataMillis v) nrows)
          | _ => none
        else if s = "FilePos" then
          match ct.get? 3 with
          | some (.lit (.i64 v)) => some (.litC (.i64 v) nrows)
          | _ => none
        else if s = "FixedDecimal" then newConstDecimalColumn ct nrows
        else if s = "Hash" then
          match ct.get? 3 with
          | some (.lit (.bigI v)) => some (.litC (.bigI v) nrows)
          | _ => none
        else if s = "Rational" then newConstRationalColumn ct nrows
        else if s = "Missing" then some (.missC nrows)
        else if isCalendarKind s then
          match ct.get? 3 with
          | some (.lit (.i64 v)) => some (.litC (.i64 v) nrows)
          | _ => none
        else (newConstColumnMembers ct nrows).map fun cols => .constC cols nrows
      | none => (newConstColumnMembers ct nrows).map fun cols => .constC cols nrows
    else (newConstColumnMembers ct nrows).map fun cols => .constC cols nrows

/-- The structural member loop of `newConstColumn`: nested constant
compositors recurse, a (unexpected) value compositor becomes an unknown
column, and any other element becomes a literal column over the element's
plain value. -/
def newConstColumnMembers : List RelType → Nat → Option (List Col)
  | [], _ => some []
  | .const sub :: ts, nrows =>
      (newConstColumn sub nrows).bind fun c =>
      (newConstColumnMembers ts nrows).map fun cs => c :: cs
  | .value _ :: ts, nrows =>
      (newConstColumnMembers ts nrows).map fun cs => Col.unknownC nrows :: cs
  | .prim t :: ts, nrows =>
      (newConstColumnMembers ts nrows).map fun cs => Col.litC (.rty t) nrows :: cs
  | .lit v :: ts, nrows =>
      (newConstColumnMembers ts nrows).map fun cs => Col.litC v nrows :: cs

end

/-- Source `newBuiltinValueColumn` (part_004): the semantically-typed column for a
recognized builtin value compositor over an adapted physical column.
Outer `none` models a Go panic (failed column assertion); `some none`
models Go returning a nil column ("not a recognized builtin value type",
the structural fall-through); `some (some c)` is a recognized build. -/
def newBuiltinValueColumn (vt : List RelType) (c : Col) (nrows : Nat) : Option (Option Col) :=
  if matchPrefixRB vt then
    match discOf vt with
    | some s =>
      if s = "AutoNumber" then some (some c)
      else if s = "Date" then
        (if isDataColOf .i64T c then some (some (.dateC c)) else none)
      else if s = "DateTime" then
        (if isDataColOf .i64T c then some (some (.dateTimeC c)) else none)
      else if s = "FilePos" then some (some c)
      else if s = "FixedDecimal" then (newDecimalColumn vt c).map some
      else if s = "Hash" then
        match c with
        | .listC .u64T data n => some (some (.uint128C (.listC .u64T data n)))
        | _ => none
      else if s = "Rational" then some (some (newRationalColumn c))
      else if s = "Missing" then some (some (.missC nrows))
      else if isCalendarKind s then some (some c)
      else some none
    | none => some none
  else some none

mutual

/-- Source `newRelationColumn` (part_004): resolve one metadata element against its
(possibly absent) physical column.  Char/Int128/Uint128 re-interpret the
column (their Go type assertions modelled by the column-shape checks);
other relation primitives pass the column through; unrecognized primitive
types degrade to an unknown column reporting the fixed row count; constant
compositors build constant columns (no physical column consulted); value
compositors project; strings become symbol columns; other literals become
literal columns.  `none` models the Go panics (failed assertion, or a nil
column where the element needs one). -/
def newRelationColumn : RelType → Option Col → Nat → Option Col
  | .prim t, col?, nrows =>
      if t = .charT then
        match col? with
        | some c => if isDataColOf .u32T c then some (.charC c) else none
        | none => none
      else if t = .i128T then
        match col? with
        | some (.listC .u64T data n) => some (.int128C (.listC .u64T data n))
        | _ => none
      else if t = .u128T then
        match col? with
        | some (.listC .u64T data n) => some (.uint128C (.listC .u64T data n))
        | _ => none
      else if isRelationPrimitive t then
        match col? with
        | some c => some c
        | none => none
      else some (.unknownC nrows)
  | .const ct, _, nrows => newConstColumn ct nrows
  | .value vt, col?, nrows =>
      match col? with
      | some c => newValueColumn vt c nrows
      | none => none
  | .lit (.str s), _, nrows => some (.symC s nrows)
  | .lit v, _, nrows => some (.litC v nrows)

/-- Source `newValueColumn` (part_004): recognized builtins first; otherwise the
tabular projection when the physical column is `Tabular`, else the simple
(broadcast) projection. -/
def newValueColumn : List RelType → Col → Nat → Option Col
  | vt, c, nrows =>
      match newBuiltinValueColumn vt c nrows with
      | none => none
      | some (some cc) => some cc
      | some none =>
          if isTabularCol c then
            (newTabularValueMembers vt c 0 nrows).map fun cols => .valueC cols
          else
            (newSimpleValueMembers vt c nrows).map fun cols => .valueC cols

/-- The member loop of `newSimpleValueColumn` (part_004): nested value
compositors recurse against the same column; every other element resolves
via `newRelationColumn` against the same column. -/
def newSimpleValueMembers : List RelType → Col → Nat → Option (List Col)
  | [], _, _ => some []
  | .value vt' :: ts, c, nrows =>
      (newValueColumn vt' c nrows).bind fun cc =>
      (newSimpleValueMembers ts c nrows).map fun cs => cc :: cs
  | .prim t :: ts, c, nrows =>
      (newRelationColumn (.prim t) (some c) nrows).bind fun cc =>
      (newSimpleValueMembers ts c nrows).map fun cs => cc :: cs
  | .const ct :: ts, c, nrows =>
      (newRelationColumn (.const ct) (some c) nrows).bind fun cc =>
      (newSimpleValueMembers ts c nrows).map fun cs => cc :: cs
  | .lit v :: ts, c, nrows =>
      (newRelationColumn (.lit v) (some c) nrows).bind fun cc =>
      (newSimpleValueMembers ts c nrows).map fun cs => cc :: cs

/-- The member loop of `newTabularValueColumn` (part_004), threading the
consumed sub-column counter: a `reflect.Type` element resolves against the
next sub-column; a nested value compositor projects the next sub-column;
a string becomes a symbol column (no sub-column consumed); any other
element becomes a literal column over its plain value. -/
def newTabularValueMembers : List RelType → Col → Nat → Nat → Option (List Col)
  | [], _, _, _ => some []
  | .prim t :: ts, c, ncol, nrows =>
      (c.columnAt ncol).bind fun sub =>
      (newRelationColumn (.prim t) (some sub) nrows).bind fun cc =>
      (newTabularValueMembers ts c (ncol + 1) nrows).map fun cs => cc :: cs
  | .value vt' :: ts, c, ncol, nrows =>
      (c.columnAt ncol).bind fun sub =>
      (newValueColumn vt' sub nrows).bind fun cc =>
      (newTabularValueMembers ts c (ncol + 1) nrows).map fun cs => cc :: cs
  | .lit (.str s) :: ts, c, ncol, nrows =>
      (newTabularValueMembers ts c ncol nrows).map fun cs => Col.symC s nrows :: cs
  | .const ct :: ts, c, ncol, nrows =>
      (newTabularValueMembers ts c ncol nrows).map fun cs =>
        Col.litC (relTypeAsGoVal (.const ct)) nrows :: cs
  | .lit v :: ts, c, ncol, nrows =>
      (newTabularValueMembers ts c ncol nrows).map fun cs => Col.litC v nrows :: cs

end

/-! ## Partition, base relation assembly (part_004) -/

/-- A `Partition`: the adapted physical columns and the backing record's
row count. -/
structure Partition where
  pcols : List Col
  pnrows : Nat

/-- The placement pass of `baseRelation.init`: walk the metadata signature,
giving each non-constant element the next physical column in partition
order (`none` models the Go index panic when the partition runs short of
columns) and leaving constant slots empty; also return the count of
consumed columns. -/
def placePartitionCols : List RelType → List Col → Option (List (Option Col) × Nat)
  | [], _ => some ([], 0)
  | m :: ms, cols =>
      if isConstType m then
        (placePartitionCols ms cols).map fun (ps, k) => (none :: ps, k)
      else
        match cols with
        | [] => none
        | c :: cs => (placePartitionCols ms cs).map fun (ps, k) => (some c :: ps, k + 1)

/-- An assembled relation: a base relation after `baseRelation.init`
(columns and the computed row count; the signature as `ensureSignature`
yields it) or a derived relation (`derivedRelation`). -/
inductive Reln where
  | base (sig : List GoVal) (cols : List Col) (nrows : Nat)
  | derived (sig : List GoVal) (cols : List Col)

/-- The column resolution pass of `baseRelation.init`: one relation column
per metadata element. -/
def newRelationColumns : List (RelType × Option Col) → Nat → Option (List Col)
  | [], _ => some []
  | (m, pc) :: rest, nrows =>
      (newRelationColumn m pc nrows).bind fun c =>
      (newRelationColumns rest nrows).map fun cs => c :: cs

/-- Source `baseRelation.init` / `newBaseRelation` (part_004): place partition
columns positionally for the non-constant metadata elements, fix the row
count (1 when zero physical columns were consumed, else the partition's
row count), then resolve every metadata element to a relation column. -/
def baseRelationInit (meta : List RelType) (p : Partition) : Option Reln := do
  let (pcols, ncols) ← placePartitionCols meta p.pcols
  let nrows := if ncols = 0 then 1 else p.pnrows
  let cols ← newRelationColumns (meta.zip pcols) nrows
  return .base (relationTypeList meta) cols nrows

/-- Source `NumCols`: the length of the column list (for a base relation Go uses
`len(r.meta)`, which `init` makes equal to the column-list length). -/
def Reln.numCols : Reln → Nat
  | .base _ cols _ => cols.length
  | .derived _ cols => cols.length

/-- The column list of a relation (`Columns`). -/
def Reln.colsOf : Reln → List Col
  | .base _ cols _ => cols
  | .derived _ cols => cols

/-- Source `Column(cnum)` (`none` models the Go index panic). -/
def Reln.colAt (r : Reln) (cnum : Nat) : Option Col :=
  r.colsOf.get? cnum

/-- Source `Signature()`. -/
def Reln.signature : Reln → List GoVal
  | .base sig _ _ => sig
  | .derived sig _ => sig

/-- Source `NumRows`: a base relation reports the row count fixed by `init`; a
derived relation reports its first column's row count (`none` models the
Go index panic on a zero-column derived relation). -/
def Reln.numRowsOpt : Reln → Option Nat
  | .base _ _ nrows => some nrows
  | .derived _ cols => cols.head?.map Col.numRows

/-- The value at one column and row (`r.Column(cnum).Value(rnum)`); junk
`nil` outside the column range. -/
def Reln.valueAt (r : Reln) (cnum rnum : Nat) : GoVal :=
  match r.colAt cnum with
  | some c => c.value rnum
  | none => .nil

/-- Source `String(rnum)` of a relation: the per-column strings, parenthesized and
comma-joined. -/
def Reln.stringRow (r : Reln) (rnum : Nat) : String :=
  "(" ++ String.intercalate ", " (Col.stringsList r.colsOf rnum) ++ ")"

/-! ## Relation algebra (part_004) -/

/-- Source `maxNumCols`: the maximum column count over the given relations. -/
def maxNumCols (rs : List Reln) : Nat :=
  rs.foldl (fun m r => max m r.numCols) 0

/-- Source `makeUnionColumn`: column `cnum` of each relation that has at least
`cnum+1` columns, a nil placeholder reporting that relation's row count
otherwise, wrapped as a union column.  `none` models the Go panic when a
zero-column derived relation's row count is demanded for the placeholder. -/
def makeUnionColumn (rs : List Reln) (cnum : Nat) : Option Col :=
  (rs.mapM fun (r : Reln) =>
    if cnum < r.numCols then r.colAt cnum
    else (r.numRowsOpt).map Col.nilC).map Col.unionC

/-- Source `newUnionRelation`: a single relation is returned unchanged; otherwise
a derived relation over one union column per column index up to the
maximum column count, with the signature read off the union columns'
types. -/
def newUnionRelation : List Reln → Option Reln
  | [r] => some r
  | rs =>
      ((List.range (maxNumCols rs)).mapM (makeUnionColumn rs)).map fun cols =>
        .derived (cols.map Col.type) cols

/-- The positional loop of `matchSig` (part_001): each prefix term must
equal the signature element at its position, the term "_" matching
anything. -/
def matchSigLoop : List GoVal → List GoVal → Bool
  | [], _ => true
  | _ :: _, [] => false
  | p :: ps, s :: ss =>
      (GoVal.beq p (.str "_") || GoVal.beq p s) && matchSigLoop ps ss

/-- Source `matchSig` (part_001): a prefix longer than the signature never
matches; otherwise run the positional loop.  (The Go nil-prefix guard
coincides with the empty-prefix behaviour of the loop.) -/
def matchSig (pre sig : List GoVal) : Bool :=
  if sig.length < pre.length then false
  else matchSigLoop pre sig

/-- Source `RelationCollection.Select` (part_004): no arguments returns the
collection itself; otherwise keep exactly the relations whose signature
matches the argument prefix. -/
def Select (c : List Reln) (args : List GoVal) : List Reln :=
  match args with
  | [] => c
  | _ => c.filter fun r => matchSig args r.signature

/-! ## Specification-side definitions

The definitions below state the claims' vocabulary (they are compared with
the source-side definitions above by the theorems; they are not
transcriptions of Go code). -/

/-- The epoch milliseconds carried by a timestamp value. -/
def GoVal.asMs : GoVal → Int
  | .timeV ms => ms
  | _ => 0

/-- Modelled from the spec: re-derive the Rata Die day count from a
calendar timestamp.  The repository has no inverse of `DateFromRataDie`;
the spec's round-trip property ("re-deriving its day count from the
resulting calendar timestamp") determines it as the day number of the
timestamp's UTC day: floor division of its epoch milliseconds by
`dayMillis`, offset back by the epoch's Rata Die day number. -/
def rataDieOfTime (v : GoVal) : Int :=
  v.asMs.fdiv dayMillis + epochStartDays

/-- The exact rational denoted by a decimal value (`coeff * 10^exp`). -/
def decToRat : GoVal → Rat
  | .dec c e => (c : Rat) * (10 : Rat) ^ (e : Int)
  | _ => 0

/-- The metadata argument list of a `FixedDecimal` value compositor with
the given declared bit-width and digit-count literals. -/
def fixedDecimalVT (w dd : Int) : List RelType :=
  [.lit (.str "rel"), .lit (.str "base"), .lit (.str "FixedDecimal"),
   .lit (.i64 w), .lit (.i64 dd)]

/-- A one-row physical integer column of the given declared bit-width
holding the value `m`. -/
def mkIntCol (w : Int) (m : Int) : Col :=
  if w = 8 then .prim .i8T [.i8 m]
  else if w = 16 then .prim .i16T [.i16 m]
  else if w = 32 then .prim .i32T [.i32 m]
  else .prim .i64T [.i64 m]

/-- The builtin discriminators `newBuiltinValueColumn` recognizes. -/
def recognizedKind (s : String) : Bool :=
  s = "AutoNumber" || s = "Date" || s = "DateTime" || s = "FilePos" ||
  s = "FixedDecimal" || s = "Hash" || s = "Rational" || s = "Missing" ||
  isCalendarKind s

/-- A relation's row count with junk default 0 (used only under the
hypothesis that the row count is defined). -/
def Reln.rowsD (r : Reln) : Nat :=
  (r.numRowsOpt).getD 0

/-- Column `cnum` of a relation with a junk default (used only for
`cnum < numCols`, where the column exists). -/
def Reln.colD (r : Reln) (cnum : Nat) : Col :=
  (r.colAt cnum).getD (.nilC 0)

/-- The claim's effective column list for result column `cnum`: column
`cnum` of each input that has at least `cnum+1` columns, otherwise a nil
placeholder reporting that input's row count. -/
def effCols (rs : List Reln) (cnum : Nat) : List Col :=
  rs.map fun r => if cnum < r.numCols then r.colD cnum else .nilC r.rowsD

/-- The claim's row-range delegation: the value of result column `cnum` at
global row `g` comes from the input owning that row range (its own column
`cnum` if it has one, the nil placeholder's `nil` otherwise). -/
def unionValueSpec : List Reln → Nat → Nat → GoVal
  | [], _, _ => .nil
  | r :: rs, cnum, g =>
      if g < r.rowsD then
        (if cnum < r.numCols then r.valueAt cnum g else .nil)
      else unionValueSpec rs cnum (g - r.rowsD)

/-- The claim's type-tag rule for result column `cnum`: the common type of
the effective columns if they all agree, the mixed marker otherwise. -/
def unionTypeSpec (rs : List Reln) (cnum : Nat) : GoVal :=
  match effCols rs cnum with
  | [] => .nil
  | c :: cs =>
      if cs.all (fun c' => GoVal.beq c.type c'.type) then c.type
      else .rty .mixedT

/-- The type tag of result column `cnum` (`u.Column(cnum).Type()`). -/
def Reln.colTypeAt (r : Reln) (cnum : Nat) : Option GoVal :=
  (r.colAt cnum).map Col.type

/-- Sum of the inputs' row counts. -/
def sumRowsD (rs : List Reln) : Nat :=
  (rs.map Reln.rowsD).sum

theorem placePartitionCols_count_zero_iff :
    ∀ (meta : List RelType) (cols : List Col) (ps : List (Option Col)) (k : Nat),
      placePartitionCols meta cols = some (ps, k) →
      (k = 0 ↔ ∀ m ∈ meta, isConstType m = true) := by
  intro meta
  induction meta with
  | nil => intro cols ps k h; simp [placePartitionCols] at h; simp [h.2]
  | cons m ms ih =>
    intro cols ps k h
    by_cases hc : isConstType m = true
    · cases hrec : placePartitionCols ms cols with
      | none => simp [placePartitionCols, hc, hrec] at h
      | some pk =>
        obtain ⟨ps', k'⟩ := pk
        simp [placePartitionCols, hc, hrec] at h
        have := ih cols ps' k' hrec
        simp [← h.2, hc, this]
    · cases cols with
      | nil => simp [placePartitionCols, hc] at h
      | cons c cs =>
        cases hrec : placePartitionCols ms cs with
        | none => simp [placePartitionCols, hc, hrec] at h
        | some pk =>
          obtain ⟨ps', k'⟩ := pk
          simp [placePartitionCols, hc, hrec] at h
          constructor
          · intro hk0; omega
          · intro hall; exact absurd (hall m (by simp)) hc

/-- C1 (amended): the assembled row count is 1 when every metadata element
is constant, and the partition's row count otherwise. -/
theorem c1_base_relation_row_count (meta : List RelType) (p : Partition) (r : Reln)
    (h : baseRelationInit meta p = some r) :
    ((∀ m ∈ meta, isConstType m = true) → r.numRowsOpt = some 1) ∧
    ((∃ m ∈ meta, isConstType m = false) → r.numRowsOpt = some p.pnrows) := by
  cases hpl : placePartitionCols meta p.pcols with
  | none => simp [baseRelationInit, hpl] at h
  | some pk =>
    obtain ⟨ps, k⟩ := pk
    have hiff := placePartitionCols_count_zero_iff meta p.pcols ps k hpl
    cases hcols : newRelationColumns (meta.zip ps) (if k = 0 then 1 else p.pnrows) with
    | none => simp [baseRelationInit, hpl, hcols] at h
    | some cols =>
      simp [baseRelationInit, hpl, hcols] at h
      constructor
      · intro hall
        have hk0 : k = 0 := hiff.mpr hall
        simp [← h, Reln.numRowsOpt, hk0]
      · intro ⟨m, hm, hmc⟩
        have hk0 : ¬ k = 0 := by
          intro hk
          exact absurd (hiff.mp hk m hm) (by simp [hmc])
        simp [← h, Reln.numRowsOpt, hk0]

/-- C1 counterexample: a one-row partition consumed by a non-constant
metadata element yields row count 1 even though the signature has a
non-constant element, refuting the claimed "iff". -/
theorem c1_counterexample :
    baseRelationInit [.prim .i64T] ⟨[.prim .i64T [.i64 5]], 1⟩ =
      some (.base [.rty .i64T] [.prim .i64T [.i64 5]] 1) ∧
    (Reln.base [.rty .i64T] [.prim .i64T [.i64 5]] 1).numRowsOpt = some 1 ∧
    isConstType (.prim .i64T) = false := by
  refine ⟨?_, by simp [Reln.numRowsOpt], by simp [isConstType]⟩
  simp [baseRelationInit, placePartitionCols, isConstType, newRelationColumns,
    newRelationColumn, relationTypeList, relationType, isRelationPrimitive,
    bind, Option.bind]

/-- C1 witness: a fully-constant signature over a five-row partition gets
row count 1; a signature with a runtime type over that partition gets the
partition's row count 5. -/
theorem c1_witness :
    (Reln.base [.str "a"] [.symC "a" 1] 1).numRowsOpt = some 1 ∧
    (Reln.base [.rty .i64T] [.prim .i64T [.i64 1, .i64 2, .i64 3, .i64 4, .i64 5]] 5).numRowsOpt
      = some 5 := by
  constructor
  · exact (c1_base_relation_row_count [.lit (.str "a")] ⟨[], 5⟩ _
      (by simp [baseRelationInit, placePartitionCols, isConstType,
        newRelationColumns, newRelationColumn, relationTypeList, relationType,
        bind, Option.bind])).1
      (by intro m hm; simp at hm; simp [hm, isConstType])
  · exact (c1_base_relation_row_count [.prim .i64T]
      ⟨[.prim .i64T [.i64 1, .i64 2, .i64 3, .i64 4, .i64 5]], 5⟩ _
      (by simp [baseRelationInit, placePartitionCols, isConstType,
        newRelationColumns, newRelationColumn, relationTypeList, relationType,
        isRelationPrimitive, bind, Option.bind])).2
      ⟨.prim .i64T, by simp, by simp [isConstType]⟩

/-- C8: the union of a single relation is that relation itself. -/
theorem c8_union_singleton_identity (r : Reln) : newUnionRelation [r] = some r := rfl

/-- C9: the `[:foo]` scenario. -/
theorem c9_symbol_scenario :
    baseRelationInit [.lit (.str ":foo")] ⟨[.prim .i64T [.i64 1]], 1⟩ =
      some (.base [.str ":foo"] [.symC ":foo" 1] 1) ∧
    placePartitionCols [.lit (.str ":foo")] [.prim .i64T [.i64 1]] =
      some ([none], 0) ∧
    (Reln.base [.str ":foo"] [.symC ":foo" 1] 1).numCols = 1 ∧
    (Reln.base [.str ":foo"] [.symC ":foo" 1] 1).numRowsOpt = some 1 ∧
    (Reln.base [.str ":foo"] [.symC ":foo" 1] 1).valueAt 0 0 = .str ":foo" ∧
    (Reln.base [.str ":foo"] [.symC ":foo" 1] 1).stringRow 0 = "(:foo)" := by
  refine ⟨?_, ?_, ?_, ?_, ?_, ?_⟩
  · simp [baseRelationInit, placePartitionCols, isConstType, newRelationColumns,
      newRelationColumn, relationTypeList, relationType, bind, Option.bind]
  · simp [placePartitionCols, isConstType]
  · simp [Reln.numCols]
  · simp [Reln.numRowsOpt]
  · simp [Reln.valueAt, Reln.colAt, Reln.colsOf, Col.value]
  · simp [Reln.stringRow, Reln.colsOf, Col.stringsList, Col.stringAt]
    rfl

/-- C10: at `listColumn[int64]{data: [10,20,30,40], ncols: 2}` the two
sub-column access paths disagree: `Column(0)` reads entry 10 at row 0 while
`Columns()[0]` reads entry 30, because `listColumn.Columns` fills the
`listItemColumn` fields `(data, cnum, ncols)` with `(data, ncols, i)`. -/
theorem c10_columns_transposed :
    (Col.listC .i64T [.i64 10, .i64 20, .i64 30, .i64 40] 2).columnAt 0 =
      some (.listItemC .i64T [.i64 10, .i64 20, .i64 30, .i64 40] 0 2) ∧
    (Col.listC .i64T [.i64 10, .i64 20, .i64 30, .i64 40] 2).columnsList =
      some [.listItemC .i64T [.i64 10, .i64 20, .i64 30, .i64 40] 2 0,
            .listItemC .i64T [.i64 10, .i64 20, .i64 30, .i64 40] 2 1] ∧
    (Col.listItemC .i64T [.i64 10, .i64 20, .i64 30, .i64 40] 0 2).value 0 = .i64 10 ∧
    (Col.listItemC .i64T [.i64 10, .i64 20, .i64 30, .i64 40] 2 0).value 0 = .i64 30 ∧
    GoVal.i64 30 ≠ GoVal.i64 10 := by
  refine ⟨by simp [Col.columnAt], ?_, by simp [Col.value], by simp [Col.value], by simp⟩
  simp [Col.columnsList, List.range_succ]

theorem fillSlotsDF_snd : ∀ (sig : List RelType) (args : List GoVal),
    slotCount sig ≤ args.length →
    (fillSlotsDF sig args).2 = args.drop (slotCount sig)
  | [], args, _ => by simp [fillSlotsDF, slotCount]
  | .prim t :: rest, args, h => by
      cases args with
      | nil => simp [slotCount] at h
      | cons a as =>
        have h' : slotCount rest ≤ as.length := by
          simp [slotCount] at h; omega
        simp [fillSlotsDF, slotCount, fillSlotsDF_snd rest as h',
          Nat.add_comm 1 (slotCount rest), List.drop_succ_cons]
  | .const sub :: rest, args, h => by
      have h1 : slotCount sub ≤ args.length := by
        simp [slotCount] at h; omega
      have h2 : slotCount rest ≤ (args.drop (slotCount sub)).length := by
        simp [slotCount] at h; simp; omega
      simp [fillSlotsDF, slotCount, fillSlotsDF_snd sub args h1,
        fillSlotsDF_snd rest (args.drop (slotCount sub)) h2, List.drop_drop]
  | .value t :: rest, args, h => by
      cases args with
      | nil => simp [slotCount] at h
      | cons a as =>
        have h' : slotCount rest ≤ as.length := by
          simp [slotCount] at h; omega
        simp [fillSlotsDF, slotCount, fillSlotsDF_snd rest as h',
          Nat.add_comm 1 (slotCount rest), List.drop_succ_cons]
  | .lit v :: rest, args, h => by
      have h' : slotCount rest ≤ args.length := by simpa [slotCount] using h
      simp [fillSlotsDF, slotCount, fillSlotsDF_snd rest args h']

theorem fillSlotsDF_fst_append : ∀ (sig : List RelType) (args extra : List GoVal),
    slotCount sig ≤ args.length →
    (fillSlotsDF sig (args ++ extra)).1 = (fillSlotsDF sig args).1
  | [], args, extra, _ => by simp [fillSlotsDF]
  | .prim t :: rest, args, extra, h => by
      cases args with
      | nil => simp [slotCount] at h
      | cons a as =>
        have h' : slotCount rest ≤ as.length := by
          simp [slotCount] at h; omega
        simp [fillSlotsDF, fillSlotsDF_fst_append rest as extra h']
  | .const sub :: rest, args, extra, h => by
      have h1 : slotCount sub ≤ args.length := by
        simp [slotCount] at h; omega
      have h2 : slotCount rest ≤ (args.drop (slotCount sub)).length := by
        simp [slotCount] at h; simp; omega
      have hsnd : (fillSlotsDF sub (args ++ extra)).2 = args.drop (slotCount sub) ++ extra := by
        rw [fillSlotsDF_snd sub (args ++ extra) (by simp; omega),
          List.drop_append_of_le_length h1]
      simp [fillSlotsDF, fillSlotsDF_fst_append sub args extra h1, hsnd,
        fillSlotsDF_snd sub args h1,
        fillSlotsDF_fst_append rest (args.drop (slotCount sub)) extra h2]
  | .value t :: rest, args, extra, h => by
      cases args with
      | nil => simp [slotCount] at h
      | cons a as =>
        have h' : slotCount rest ≤ as.length := by
          simp [slotCount] at h; omega
        simp [fillSlotsDF, fillSlotsDF_fst_append rest as extra h']
  | .lit v :: rest, args, extra, h => by
      have h' : slotCount rest ≤ args.length := by simpa [slotCount] using h
      simp [fillSlotsDF, fillSlotsDF_fst_append rest args extra h']

theorem mergeConstValueArgs_eq_fill : ∀ (sig : List RelType) (args : List GoVal),
    noValueNode sig = true →
    slotCount sig ≤ args.length →
    mergeConstValueArgs sig args =
      some ((fillSlotsDF sig args).1, args.drop (slotCount sig))
  | [], args, _, _ => by simp [mergeConstValueArgs, fillSlotsDF, slotCount]
  | .prim t :: rest, args, hnv, h => by
      cases args with
      | nil => simp [slotCount] at h
      | cons a as =>
        have h' : slotCount rest ≤ as.length := by
          simp [slotCount] at h; omega
        have hnv' : noValueNode rest = true := by simpa [noValueNode] using hnv
        simp [mergeConstValueArgs, fillSlotsDF, slotCount,
          mergeConstValueArgs_eq_fill rest as hnv' h',
          Nat.add_comm 1 (slotCount rest), List.drop_succ_cons]
  | .const sub :: rest, args, hnv, h => by
      have hnvs : noValueNode sub = true := by
        simp [noValueNode] at hnv; exact hnv.1
      have hnvr : noValueNode rest = true := by
        simp [noValueNode] at hnv; exact hnv.2
      have h1 : slotCount sub ≤ args.length := by
        simp [slotCount] at h; omega
      have h2 : slotCount rest ≤ (args.drop (slotCount sub)).length := by
        simp [slotCount] at h; simp; omega
      simp [mergeConstValueArgs, fillSlotsDF, slotCount,
        mergeConstValueArgs_eq_fill sub args hnvs h1,
        mergeConstValueArgs_eq_fill rest (args.drop (slotCount sub)) hnvr h2,
        fillSlotsDF_snd sub args h1, List.drop_drop]
  | .value t :: rest, args, hnv, h => by
      simp [noValueNode] at hnv
  | .lit v :: rest, args, hnv, h => by
      have h' : slotCount rest ≤ args.length := by simpa [slotCount] using h
      have hnv' : noValueNode rest = true := by simpa [noValueNode] using hnv
      simp [mergeConstValueArgs, fillSlotsDF, slotCount,
        mergeConstValueArgs_eq_fill rest args hnv' h']

/-- C2: with `k` runtime-type slots (nested constant compositors resolved
depth-first before later siblings, no leftover value nodes) and a literal
tuple split as `k` leading literals plus any tail, the merge consumes
exactly the leading `k` literals, places them per the depth-first fill,
and hands the untouched tail back (which the caller then discards),
without error. -/
theorem c2_merge_consumes_df (sig : List RelType) (args1 args2 : List GoVal)
    (hnv : noValueNode sig = true) (hlen : args1.length = slotCount sig) :
    mergeConstValueArgs sig (args1 ++ args2) =
      some ((fillSlotsDF sig args1).1, args2) := by
  have hle : slotCount sig ≤ (args1 ++ args2).length := by simp [← hlen]
  rw [mergeConstValueArgs_eq_fill sig (args1 ++ args2) hnv hle,
    fillSlotsDF_fst_append sig args1 args2 (le_of_eq hlen.symm),
    ← hlen, List.drop_left]

/-- C2 witness: a nested constant compositor with three slots. -/
theorem c2_witness :
    mergeConstValueArgs
      [.lit (.str "rel"), .prim .i64T, .const [.prim .strT, .lit (.i64 7), .prim .boolT]]
      [.i64 1, .str "a", .boolV true, .str "extra1", .str "extra2"] =
    some ([.lit (.str "rel"), .lit (.i64 1),
           .const [.lit (.str "a"), .lit (.i64 7), .lit (.boolV true)]],
          [.str "extra1", .str "extra2"]) := by
  have h := c2_merge_consumes_df
    [.lit (.str "rel"), .prim .i64T, .const [.prim .strT, .lit (.i64 7), .prim .boolT]]
    [.i64 1, .str "a", .boolV true] [.str "extra1", .str "extra2"]
    (by simp [noValueNode]) (by simp [slotCount])
  simpa [fillSlotsDF] using h

theorem matchSigLoop_iff : ∀ (pre sig : List GoVal), pre.length ≤ sig.length →
    (matchSigLoop pre sig = true ↔
      ∀ i < pre.length,
        GoVal.beq (pre.getD i .nil) (.str "_") = true ∨
        GoVal.beq (pre.getD i .nil) (sig.getD i .nil) = true) := by
  intro pre
  induction pre with
  | nil => intro sig h; simp [matchSigLoop]
  | cons p ps ih =>
    intro sig h
    cases sig with
    | nil => simp at h
    | cons s ss =>
      rw [matchSigLoop, Bool.and_eq_true, Bool.or_eq_true]
      constructor
      · rintro ⟨hhead, htail⟩ i hi
        cases i with
        | zero => simpa using hhead
        | succ j =>
          have := (ih ss (by simpa using h)).mp htail j (by simpa using hi)
          simpa using this
      · intro hall
        refine ⟨by simpa using hall 0 (by simp), ?_⟩
        refine (ih ss (by simpa using h)).mpr ?_
        intro j hj
        have := hall (j + 1) (by simpa using hj)
        simpa using this

/-- C5: `Select` with no terms returns the collection itself; with terms it
keeps exactly the relations whose signature prefix-matches them, where a
signature shorter than the term list never matches and the term "_"
matches any value at its position. -/
theorem c5_select_terms (c : List Reln) (args : List GoVal) :
    Select c [] = c ∧
    (args ≠ [] → Select c args = c.filter fun r => matchSig args r.signature) ∧
    (∀ pre sig : List GoVal, matchSig pre sig = true ↔
      (pre.length ≤ sig.length ∧
        ∀ i < pre.length,
          GoVal.beq (pre.getD i .nil) (.str "_") = true ∨
          GoVal.beq (pre.getD i .nil) (sig.getD i .nil) = true)) := by
  refine ⟨rfl, ?_, ?_⟩
  · intro h
    cases args with
    | nil => exact absurd rfl h
    | cons a as => rfl
  · intro pre sig
    by_cases hlen : sig.length < pre.length
    · simp [matchSig, hlen]
    · rw [matchSig, if_neg hlen, matchSigLoop_iff pre sig (by omega)]
      simp [Nat.le_of_not_lt hlen]

/-- C5 witness: `Select("a","_","c")` keeps `(a,b,c)` and `(a,x,c)` but not
`(a,b)` (too short) or `(x,b,c)`; `Select()` returns everything. -/
theorem c5_witness :
    Select
      [Reln.derived [.str "a", .str "b", .str "c"] [],
       Reln.derived [.str "a", .str "x", .str "c"] [],
       Reln.derived [.str "a", .str "b"] [],
       Reln.derived [.str "x", .str "b", .str "c"] []]
      [.str "a", .str "_", .str "c"] =
      [Reln.derived [.str "a", .str "b", .str "c"] [],
       Reln.derived [.str "a", .str "x", .str "c"] []] ∧
    Select [Reln.derived [.str "q"] []] [] = [Reln.derived [.str "q"] []] := by
  have h := c5_select_terms
    [Reln.derived [.str "a", .str "b", .str "c"] [],
     Reln.derived [.str "a", .str "x", .str "c"] [],
     Reln.derived [.str "a", .str "b"] [],
     Reln.derived [.str "x", .str "b", .str "c"] []]
    [.str "a", .str "_", .str "c"]
  refine ⟨?_, (c5_select_terms [Reln.derived [.str "q"] []] []).1⟩
  rw [h.2.1 (by simp)]
  rfl

theorem wrap32_eq_self (x : Int) (h1 : -(2 ^ 31) ≤ x) (h2 : x < 2 ^ 31) :
    wrap32 x = x := by
  simp only [wrap32]
  omega

theorem wrap32_neg_wrap32 (dd : Int) (h1 : -(2 ^ 31) < dd) (h2 : dd < 2 ^ 31) :
    wrap32 (-(wrap32 dd)) = -dd := by
  rw [wrap32_eq_self dd (by omega) h2, wrap32_eq_self (-dd) (by omega) (by omega)]

/-- C6: decoding a Date day count gives midnight UTC, re-deriving the day
count returns it exactly in the claimed range, and day count 719163 is the
Unix epoch (time 0). -/
theorem c6_date_round_trip :
    (∀ n : Int, -100000 ≤ n → n ≤ 100000 →
      (Col.dateC (.prim .i64T [.i64 n])).value 0 =
        .timeV ((n - epochStartDays) * dayMillis) ∧
      rataDieOfTime ((Col.dateC (.prim .i64T [.i64 n])).value 0) = n ∧
      ((Col.dateC (.prim .i64T [.i64 n])).value 0).asMs % dayMillis = 0) ∧
    DateFromRataDie epochStartDays = .timeV 0 := by
  constructor
  · intro n _ _
    have hval : (Col.dateC (.prim .i64T [.i64 n])).value 0 =
        .timeV ((n - epochStartDays) * dayMillis) := by
      simp [Col.value, DateFromRataDie, GoVal.asI64]
    refine ⟨hval, ?_, ?_⟩
    · rw [hval]
      simp [rataDieOfTime, GoVal.asMs]
      rw [Int.mul_fdiv_cancel _ (by norm_num [dayMillis])]
      ring
    · rw [hval]
      simp [GoVal.asMs, Int.mul_emod_left]
  · simp [DateFromRataDie]

/-- C6 witness: instantiation at day count 5 and at the epoch day. -/
theorem c6_witness :
    rataDieOfTime ((Col.dateC (.prim .i64T [.i64 5])).value 0) = 5 ∧
    DateFromRataDie epochStartDays = .timeV 0 := by
  have h := c6_date_round_trip
  exact ⟨(h.1 5 (by norm_num) (by norm_num)).2.1, h.2⟩

/-- C7: a FixedDecimal column decodes the stored integer `m` with declared
digit count `dd` to exactly `m * 10^(-dd)` — an exact rational, no
floating point — for widths 8/16/32/64, and likewise for the 128-bit
2x64-word encoding (whose integer is `NewBigInt128` of the words). -/
theorem c7_decimal_exact :
    (∀ w m dd : Int, (w = 8 ∨ w = 16 ∨ w = 32 ∨ w = 64) →
      -(2 ^ 31) < dd → dd < 2 ^ 31 →
      -(2 ^ (w.toNat - 1)) ≤ m → m < 2 ^ (w.toNat - 1) →
      ∃ c : Col,
        newDecimalColumn (fixedDecimalVT w dd) (mkIntCol w m) = some c ∧
        decToRat (c.value 0) = (m : Rat) * (10 : Rat) ^ (-dd)) ∧
    (∀ (lo hi : Nat) (dd : Int), lo < 2 ^ 64 → hi < 2 ^ 64 →
      -(2 ^ 31) < dd → dd < 2 ^ 31 →
      ∃ c : Col,
        newDecimalColumn (fixedDecimalVT 128 dd)
          (.listC .u64T [.u64 lo, .u64 hi] 2) = some c ∧
        decToRat (c.value 0) = ((bigInt128 lo hi : Int) : Rat) * (10 : Rat) ^ (-dd)) := by
  constructor
  · intro w m dd hw hd1 hd2 _ _
    have hdig := wrap32_neg_wrap32 dd hd1 hd2
    rcases hw with h8 | h16 | h32 | h64
    · subst h8
      refine ⟨.decC 8 (mkIntCol 8 m) (-dd), ?_, ?_⟩
      · simp [newDecimalColumn, fixedDecimalVT, hdig, mkIntCol, isDataColOf]
      · simp [Col.value, mkIntCol, GoVal.asIntVal, decToRat]
    · subst h16
      refine ⟨.decC 16 (mkIntCol 16 m) (-dd), ?_, ?_⟩
      · simp [newDecimalColumn, fixedDecimalVT, hdig, mkIntCol, isDataColOf]
      · simp [Col.value, mkIntCol, GoVal.asIntVal, decToRat]
    · subst h32
      refine ⟨.decC 32 (mkIntCol 32 m) (-dd), ?_, ?_⟩
      · simp [newDecimalColumn, fixedDecimalVT, hdig, mkIntCol, isDataColOf]
      · simp [Col.value, mkIntCol, GoVal.asIntVal, decToRat]
    · subst h64
      refine ⟨.decC 64 (mkIntCol 64 m) (-dd), ?_, ?_⟩
      · simp [newDecimalColumn, fixedDecimalVT, hdig, mkIntCol, isDataColOf]
      · simp [Col.value, mkIntCol, GoVal.asIntVal, decToRat]
  · intro lo hi dd _ _ hd1 hd2
    have hdig := wrap32_neg_wrap32 dd hd1 hd2
    refine ⟨.dec128C (.listC .u64T [.u64 lo, .u64 hi] 2) (-dd), ?_, ?_⟩
    · simp [newDecimalColumn, fixedDecimalVT, hdig]
    · simp [Col.value, NewDecimal128, GoVal.tupleAt, GoVal.asU64, decToRat,
        List.range_succ]

/-- C7 witness: width 64, stored integer 3, two digits: exactly 3/100; and
the 128-bit encoding of (lo=7, hi=0) with one digit: exactly 7/10. -/
theorem c7_witness :
    (∃ c : Col,
      newDecimalColumn (fixedDecimalVT 64 2) (mkIntCol 64 3) = some c ∧
      decToRat (c.value 0) = (3 : Rat) * (10 : Rat) ^ (-(2 : Int))) ∧
    (∃ c : Col,
      newDecimalColumn (fixedDecimalVT 128 1)
        (.listC .u64T [.u64 7, .u64 0] 2) = some c ∧
      decToRat (c.value 0) = ((bigInt128 7 0 : Int) : Rat) * (10 : Rat) ^ (-(1 : Int))) := by
  constructor
  · exact c7_decimal_exact.1 64 3 2 (by norm_num) (by norm_num) (by norm_num)
      (by norm_num [Int.toNat]) (by norm_num [Int.toNat])
  · exact c7_decimal_exact.2 7 0 1 (by norm_num) (by norm_num) (by norm_num)
      (by norm_num)

/-- C3 counterexample: a value compositor with the unrecognized builtin
discriminator "Widget" resolves to a structural `valueColumn` (symbol
columns for the namespace markers plus the passed-through physical
column), not to the "unknown" placeholder column. -/
theorem c3_counterexample :
    newValueColumn
      [.lit (.str "rel"), .lit (.str "base"), .lit (.str "Widget"), .prim .i64T]
      (.prim .i64T [.i64 7, .i64 8]) 2 =
      some (.valueC [.symC "rel" 2, .symC "base" 2, .symC "Widget" 2,
        .prim .i64T [.i64 7, .i64 8]]) ∧
    Col.valueC [.symC "rel" 2, .symC "base" 2, .symC "Widget" 2,
        .prim .i64T [.i64 7, .i64 8]] ≠ Col.unknownC 2 := by
  constructor
  · simp [newValueColumn, newBuiltinValueColumn, matchPrefixRB, discOf,
      isCalendarKind, isTabularCol, newSimpleValueMembers, newRelationColumn,
      isRelationPrimitive]
  · intro h
    exact Col.noConfusion h

/-- C3 (amended): relation-column resolution is no-fail on the two
unrecognized-shape classes, but only the bit-width class (and unrecognized
primitive types) degrade to the "unknown" placeholder; an unrecognized
builtin discriminator instead falls through (`newBuiltinValueColumn`
returns Go nil) to generic structural column assembly. -/
theorem c3_unrecognized_shapes :
    (∀ w dd : Int, ∀ c : Col,
      ¬(w = 8 ∨ w = 16 ∨ w = 32 ∨ w = 64 ∨ w = 128) →
      newDecimalColumn (fixedDecimalVT w dd) c = some (.unknownC c.numRows)) ∧
    (∀ (s : String) (rest : List RelType) (c : Col) (nrows : Nat),
      recognizedKind s = false →
      newBuiltinValueColumn
        (.lit (.str "rel") :: .lit (.str "base") :: .lit (.str s) :: rest)
        c nrows = some none) ∧
    (∀ (vt : List RelType) (c : Col) (nrows : Nat),
      newBuiltinValueColumn vt c nrows = some none →
      newValueColumn vt c nrows =
        (if isTabularCol c then (newTabularValueMembers vt c 0 nrows).map Col.valueC
         else (newSimpleValueMembers vt c nrows).map Col.valueC)) ∧
    (∀ (t : RTy) (c : Option Col) (nrows : Nat),
      isRelationPrimitive t = false → ¬t = .charT → ¬t = .i128T → ¬t = .u128T →
      newRelationColumn (.prim t) c nrows = some (.unknownC nrows)) := by
  refine ⟨?_, ?_, ?_, ?_⟩
  · intro w dd c hw
    push_neg at hw
    obtain ⟨h8, h16, h32, h64, h128⟩ := hw
    simp [newDecimalColumn, fixedDecimalVT, h8, h16, h32, h64, h128]
  · intro s rest c nrows hk
    simp [recognizedKind, isCalendarKind] at hk
    simp [newBuiltinValueColumn, matchPrefixRB, discOf, isCalendarKind, hk]
  · intro vt c nrows hb
    simp only [newValueColumn.eq_def, hb]
  · intro t c nrows hp hc hi hu
    simp only [newRelationColumn.eq_def]
    simp [hp, hc, hi, hu]

/-- C3 witness: bit-width 7 degrades to the unknown column over the
argument column's two rows; discriminator "Widget" falls through; the
unrecognized primitive type `Unspecified` degrades to the unknown column. -/
theorem c3_witness :
    newDecimalColumn (fixedDecimalVT 7 0) (.prim .i64T [.i64 1, .i64 2]) =
      some (.unknownC 2) ∧
    newBuiltinValueColumn
      [.lit (.str "rel"), .lit (.str "base"), .lit (.str "Widget")]
      (.prim .i64T [.i64 1]) 1 = some none ∧
    newRelationColumn (.prim .unspecifiedT) none 3 = some (.unknownC 3) := by
  refine ⟨?_, ?_, ?_⟩
  · have h := c3_unrecognized_shapes.1 7 0 (.prim .i64T [.i64 1, .i64 2]) (by norm_num)
    simpa [Col.numRows] using h
  · exact c3_unrecognized_shapes.2.1 "Widget" [] (.prim .i64T [.i64 1]) 1 (by rfl)
  · exact c3_unrecognized_shapes.2.2.2 .unspecifiedT none 3 (by rfl)
      (by simp) (by simp) (by simp)

theorem typeFold_mixed : ∀ cs : List Col, Col.typeFold (.rty .mixedT) cs = .rty .mixedT := by
  intro cs
  induction cs with
  | nil => simp [Col.typeFold]
  | cons c rest ih =>
    rw [Col.typeFold]
    rcases h : GoVal.beq (.rty .mixedT) c.type with _ | _ <;> simpa [h] using ih

theorem typeFold_eq (t : GoVal) (cs : List Col) :
    Col.typeFold t cs =
      if cs.all (fun c' => GoVal.beq t c'.type) then t else .rty .mixedT := by
  induction cs with
  | nil => simp [Col.typeFold]
  | cons c rest ih =>
    rw [Col.typeFold]
    rcases h : GoVal.beq t c.type with _ | _
    · simp [h, typeFold_mixed]
    · simp [h, ih]

theorem Reln.colAt_of_lt (r : Reln) (cnum : Nat) (h : cnum < r.numCols) :
    r.colAt cnum = some (r.colD cnum) := by
  cases r with
  | base sig cols nrows =>
    simp [Reln.numCols] at h
    simp [Reln.colAt, Reln.colD, Reln.colsOf, List.getElem?_eq_getElem h]
  | derived sig cols =>
    simp [Reln.numCols] at h
    simp [Reln.colAt, Reln.colD, Reln.colsOf, List.getElem?_eq_getElem h]

theorem Reln.numRowsOpt_of_isSome (r : Reln) (h : (r.numRowsOpt).isSome) :
    r.numRowsOpt = some r.rowsD := by
  rcases hr : r.numRowsOpt with _ | n
  · rw [hr] at h; simp at h
  · simp [Reln.rowsD, hr]

theorem mapM_of_forall_some {α β : Type} (f : α → Option β) (g : α → β) :
    ∀ l : List α, (∀ a ∈ l, f a = some (g a)) → l.mapM f = some (l.map g) := by
  intro l
  induction l with
  | nil => intro _; rfl
  | cons a rest ih =>
    intro h
    rw [List.mapM_cons, h a (by simp), ih (fun x hx => h x (by simp [hx]))]
    rfl

theorem makeUnionColumn_eq (rs : List Reln) (cnum : Nat)
    (hrows : ∀ r ∈ rs, (r.numRowsOpt).isSome) :
    makeUnionColumn rs cnum = some (.unionC (effCols rs cnum)) := by
  rw [makeUnionColumn,
    mapM_of_forall_some _
      (fun r => if cnum < r.numCols then r.colD cnum else .nilC r.rowsD) rs ?_]
  · rfl
  · intro r hr
    by_cases h : cnum < r.numCols
    · rw [Reln.colAt_of_lt r cnum h]
      simp [h]
    · rw [Reln.numRowsOpt_of_isSome r (hrows r hr)]
      simp [h]

theorem sumRows_effCols (rs : List Reln) (cnum : Nat)
    (hrect : ∀ r ∈ rs, ∀ j < r.numCols, (r.colD j).numRows = r.rowsD) :
    Col.sumRows (effCols rs cnum) = sumRowsD rs := by
  induction rs with
  | nil => simp [effCols, Col.sumRows, sumRowsD]
  | cons r rest ih =>
    have hr : (if cnum < r.numCols then r.colD cnum else Col.nilC r.rowsD).numRows
        = r.rowsD := by
      by_cases h : cnum < r.numCols
      · simp [h, hrect r (by simp) cnum h]
      · simp [h, Col.numRows]
    simp only [effCols, List.map_cons, Col.sumRows, sumRowsD, List.sum_cons] at *
    rw [hr, ih (fun x hx => hrect x (by simp [hx]))]

theorem unionItem_effCols (rs : List Reln) (cnum : Nat)
    (hrect : ∀ r ∈ rs, ∀ j < r.numCols, (r.colD j).numRows = r.rowsD) :
    ∀ g, Col.unionItem (effCols rs cnum) g = unionValueSpec rs cnum g := by
  induction rs with
  | nil => intro g; simp [effCols, Col.unionItem, unionValueSpec]
  | cons r rest ih =>
    intro g
    have hr : (if cnum < r.numCols then r.colD cnum else Col.nilC r.rowsD).numRows
        = r.rowsD := by
      by_cases h : cnum < r.numCols
      · simp [h, hrect r (by simp) cnum h]
      · simp [h, Col.numRows]
    simp only [effCols, List.map_cons] at *
    rw [Col.unionItem, hr, unionValueSpec]
    by_cases hg : g < r.rowsD
    · simp only [hg, if_true]
      by_cases h : cnum < r.numCols
      · simp [h, Reln.valueAt, Reln.colAt_of_lt r cnum h]
      · simp [h, Col.value]
    · simp only [hg, if_false]
      exact ih (fun x hx => hrect x (by simp [hx])) (g - r.rowsD)

theorem numRows_unionC (cols : List Col) :
    (Col.unionC cols).numRows = Col.sumRows cols := rfl

theorem value_unionC (cols : List Col) (g : Nat) :
    (Col.unionC cols).value g = Col.unionItem cols g := rfl

theorem type_unionC_cons (c : Col) (cs : List Col) :
    (Col.unionC (c :: cs)).type = Col.typeFold c.type cs := rfl

/-- C4 (amended): for a non-empty list of relations in which every relation
has a defined row count and some relation has a column, the union is
defined, has the maximum column count, sums the row counts, reconciles each
column's type tag (common type if the effective columns agree, mixed
marker otherwise), and delegates each global row to the owning input's
column (nil where that input lacks the column). -/
theorem c4_union_relation (rs : List Reln)
    (hne : rs ≠ [])
    (hcols : 0 < maxNumCols rs)
    (hrows : ∀ r ∈ rs, (r.numRowsOpt).isSome)
    (hrect : ∀ r ∈ rs, ∀ j < r.numCols, (r.colD j).numRows = r.rowsD) :
    ∃ u, newUnionRelation rs = some u ∧
      u.numCols = maxNumCols rs ∧
      u.numRowsOpt = some (sumRowsD rs) ∧
      (∀ i < maxNumCols rs, u.colTypeAt i = some (unionTypeSpec rs i)) ∧
      (∀ i < maxNumCols rs, ∀ g < sumRowsD rs, u.valueAt i g = unionValueSpec rs i g) := by
  match rs with
  | [] => exact absurd rfl hne
  | [r] =>
    refine ⟨r, rfl, ?_, ?_, ?_, ?_⟩
    · simp [maxNumCols]
    · exact Reln.numRowsOpt_of_isSome r (hrows r (by simp)) |>.trans
        (by simp [sumRowsD])
    · intro i hi
      have hi' : i < r.numCols := by simpa [maxNumCols] using hi
      rw [Reln.colTypeAt, Reln.colAt_of_lt r i hi']
      simp [unionTypeSpec, effCols, hi']
    · intro i hi g hg
      have hi' : i < r.numCols := by simpa [maxNumCols] using hi
      have hg' : g < r.rowsD := by simpa [sumRowsD] using hg
      simp [unionValueSpec, hi', hg']
  | r1 :: r2 :: rest =>
    have hmk : ∀ i ∈ List.range (maxNumCols (r1 :: r2 :: rest)),
        makeUnionColumn (r1 :: r2 :: rest) i =
          some (.unionC (effCols (r1 :: r2 :: rest) i)) :=
      fun i _ => makeUnionColumn_eq _ i hrows
    have hcols' := mapM_of_forall_some _ _ _ hmk
    have hdef : newUnionRelation (r1 :: r2 :: rest) =
        ((List.range (maxNumCols (r1 :: r2 :: rest))).mapM
          (makeUnionColumn (r1 :: r2 :: rest))).map
          (fun cols => .derived (cols.map Col.type) cols) := rfl
    rw [hcols'] at hdef
    simp only [Option.map_some'] at hdef
    refine ⟨_, hdef, ?_, ?_, ?_, ?_⟩
    · simp [Reln.numCols]
    · rcases hn : maxNumCols (r1 :: r2 :: rest) with _ | n
      · omega
      · simp only [hn, Reln.numRowsOpt, List.range_succ_eq_map, List.map_cons,
          List.head?_cons]
        exact congrArg some ((numRows_unionC _).trans (sumRows_effCols _ 0 hrect))
    · intro i hi
      rw [Reln.colTypeAt, Reln.colAt]
      simp only [Reln.colsOf, List.get?_map, List.get?_range hi, Option.map]
      rw [unionTypeSpec]
      rcases he : effCols (r1 :: r2 :: rest) i with _ | ⟨c, cs⟩
      · simp [effCols] at he
      · rw [type_unionC_cons]
        simp [typeFold_eq]
    · intro i hi g _
      rw [Reln.valueAt, Reln.colAt]
      simp only [Reln.colsOf, List.get?_map, List.get?_range hi, Option.map]
      rw [value_unionC]
      exact unionItem_effCols _ i hrect g

/-- C4 counterexample: unioning two zero-column relations (each with row
count 1) produces a zero-column derived relation whose row count is
undefined (`derivedRelation.NumRows` indexes column 0 and panics), not the
sum 2 the claim promises for every non-empty input list. -/
theorem c4_counterexample :
    newUnionRelation [Reln.base [] [] 1, Reln.base [] [] 1] =
      some (.derived [] []) ∧
    (Reln.derived [] []).numRowsOpt = none ∧
    sumRowsD [Reln.base [] [] 1, Reln.base [] [] 1] = 2 := by
  refine ⟨rfl, rfl, ?_⟩
  simp [sumRowsD, Reln.rowsD, Reln.numRowsOpt]

/-- C4 witness: a one-column two-row relation unioned with a zero-column
one-row relation gives one column and three rows. -/
theorem c4_witness :
    ∃ u, newUnionRelation
        [Reln.base [.rty .i64T] [.prim .i64T [.i64 1, .i64 2]] 2,
         Reln.base [] [] 1] = some u ∧
      u.numCols = 1 ∧ u.numRowsOpt = some 3 := by
  obtain ⟨u, h1, h2, h3, _, _⟩ := c4_union_relation
    [Reln.base [.rty .i64T] [.prim .i64T [.i64 1, .i64 2]] 2, Reln.base [] [] 1]
    (by simp)
    (by simp [maxNumCols, Reln.numCols])
    (by
      intro r hr
      simp at hr
      rcases hr with h | h <;> simp [h, Reln.numRowsOpt])
    (by
      intro r hr j hj
      simp at hr
      rcases hr with h | h <;> subst h <;> simp [Reln.numCols] at hj
      have : j = 0 := by omega
      subst this
      simp [Reln.colD, Reln.colAt, Reln.colsOf, Reln.rowsD, Reln.numRowsOpt,
        Col.numRows])
  refine ⟨u, h1, ?_, ?_⟩
  · rw [h2]; simp [maxNumCols, Reln.numCols]
  · rw [h3]; simp [sumRowsD, Reln.rowsD, Reln.numRowsOpt]
